import Mathlib

/-!
Shallow embedding of the notification-scheduling core of the NextPWA
repository, and proofs of the specification's claims about it.

Part 1 embeds the service worker `public/sw.js`: the module-level schedule
state (`notificationInterval`, `nextNotificationTime`, `checkInterval`),
the message handler, `startNotificationSchedule`, `checkAndSendNotification`,
`stopNotificationSchedule`, and the `notificationclick` handler.

Part 2 embeds the relay `backend-example.js`: the `subscriptions` map, the
cron task map, the `/api/subscribe`, `/api/unsubscribe` and `/health`
handlers, `scheduleNotification`, and `sendNotification` with its
invalid-token cleanup.

JavaScript conventions carried over: a `number | null` variable tested with
`!x` is falsy when it is `null` or `0`, so such variables are `Option Nat`
with an explicit truthiness test; a string tested with `!s` is falsy exactly
when empty.  Each synchronous handler is modelled at a single instant `now`
(the handler runs to completion on the event loop; `Date.now()` is the
ambient clock).  Side effects that leave the state (showing a notification,
posting a reply, opening a window) are returned as extra output components.
-/

/-! ### Service worker schedule state (sw.js lines 4-7) -/

/-- The three module-level variables of `sw.js`:
`notificationInterval` (minutes, or null), `nextNotificationTime`
(epoch-ms timestamp, or null), and `checkInterval` (the `setInterval`
handle, modelled as whether a poll timer is currently registered). -/
structure SWState where
  notificationInterval : Option Nat
  nextNotificationTime : Option Nat
  checkInterval : Bool
  deriving Repr, DecidableEq

/-- State of a freshly started worker: all three variables null. -/
def initialSWState : SWState :=
  { notificationInterval := none, nextNotificationTime := none, checkInterval := false }

/-- JavaScript truthiness of a `number | null` value: `null` and `0` are
falsy, every other number is truthy. -/
def jsTruthy : Option Nat → Bool
  | none => false
  | some 0 => false
  | some (_ + 1) => true

/-! ### stopNotificationSchedule (sw.js lines 96-104) -/

/-- `stopNotificationSchedule`: if a poll timer is registered, clear it;
then null out `notificationInterval` and `nextNotificationTime`. -/
def stopNotificationSchedule (s : SWState) : SWState :=
  let s1 := if s.checkInterval then { s with checkInterval := false } else s
  { s1 with notificationInterval := none, nextNotificationTime := none }

/-! ### startNotificationSchedule (sw.js lines 59-80) -/

/-- `startNotificationSchedule(intervalMinutes)`: clear any existing
schedule, set `notificationInterval`, set `nextNotificationTime` to now,
show one notification immediately, set `nextNotificationTime` to
`now + intervalMinutes*60*1000`, and register the 10-second poll timer.
The second output is the number of notifications shown during the call. -/
def startNotificationSchedule (s : SWState) (intervalMinutes : Nat) (now : Nat) :
    SWState × Nat :=
  let s1 := stopNotificationSchedule s
  let s2 := { s1 with notificationInterval := some intervalMinutes }
  let intervalMs := intervalMinutes * 60 * 1000
  let s3 := { s2 with nextNotificationTime := some now }
  let shown := 1
  let s4 := { s3 with nextNotificationTime := some (now + intervalMs) }
  let s5 := { s4 with checkInterval := true }
  (s5, shown)

/-! ### checkAndSendNotification (sw.js lines 82-94) -/

/-- `checkAndSendNotification(intervalMs)`: the body of the 10-second poll
tick.  `intervalMs` is the closure argument captured at
`startNotificationSchedule` time.  Returns early when
`nextNotificationTime` or `notificationInterval` is falsy; otherwise, when
`now >= nextNotificationTime`, shows one notification and sets
`nextNotificationTime := now + intervalMs`.  The second output is the
number of notifications shown on this tick. -/
def checkAndSendNotification (s : SWState) (intervalMs : Nat) (now : Nat) :
    SWState × Nat :=
  if !(jsTruthy s.nextNotificationTime) || !(jsTruthy s.notificationInterval) then
    (s, 0)
  else if s.nextNotificationTime.getD 0 ≤ now then
    ({ s with nextNotificationTime := some (now + intervalMs) }, 1)
  else
    (s, 0)

/-! ### Message handler (sw.js lines 43-57) -/

/-- The three message types the worker handles. -/
inductive SWMessage where
  | startNotifications (intervalMinutes : Nat)
  | stopNotifications
  | checkSchedule
  deriving Repr, DecidableEq

/-- The reply posted on `event.ports[0]` for `CHECK_SCHEDULE`:
`{ interval: notificationInterval, nextTime: nextNotificationTime }`. -/
structure ScheduleReply where
  interval : Option Nat
  nextTime : Option Nat
  deriving Repr, DecidableEq

/-- The `message` event listener: dispatch on `event.data.type`.  Outputs
the new state, the number of notifications shown while handling the
message, and the reply posted on the provided reply port (if any). -/
def handleMessage (s : SWState) (msg : SWMessage) (now : Nat) :
    SWState × Nat × Option ScheduleReply :=
  match msg with
  | .startNotifications intervalMinutes =>
      let r := startNotificationSchedule s intervalMinutes now
      (r.1, r.2, none)
  | .stopNotifications =>
      (stopNotificationSchedule s, 0, none)
  | .checkSchedule =>
      (s, 0, some { interval := s.notificationInterval,
                    nextTime := s.nextNotificationTime })

/-- An event observed by the worker: a posted message, or one wake-up of
the poll timer (carrying the `intervalMs` captured by its closure). -/
inductive SWEvent where
  | message (msg : SWMessage)
  | pollTick (intervalMs : Nat)
  deriving Repr, DecidableEq

/-- One step of the worker: the state after handling one event at
instant `now`. -/
def stepSW (s : SWState) (e : SWEvent) (now : Nat) : SWState :=
  match e with
  | .message msg => (handleMessage s msg now).1
  | .pollTick intervalMs => (checkAndSendNotification s intervalMs now).1

/-- The spec's ScheduleState invariant: `nextFireAt` is null iff
`intervalMinutes` is null. -/
def scheduleInvariant (s : SWState) : Prop :=
  s.nextNotificationTime = none ↔ s.notificationInterval = none

instance (s : SWState) : Decidable (scheduleInvariant s) := by
  unfold scheduleInvariant; infer_instance

/-! ### notificationclick handler (sw.js lines 121-140) -/

/-- A window client as seen by the handler: its `url` and whether
`"focus" in client` holds. -/
structure WindowClient where
  url : String
  canFocus : Bool
  deriving Repr, DecidableEq

/-- What the `notificationclick` handler ends up doing after closing the
notification. -/
inductive ClickAction where
  | focusedClient (c : WindowClient)
  | openedWindow (url : String)
  | noAction
  deriving Repr, DecidableEq

/-- The loop over `clientList`: return the first client with
`client.url === "/"` and `"focus" in client`. -/
def findRootClient : List WindowClient → Option WindowClient
  | [] => none
  | c :: rest =>
      if c.url = "/" ∧ c.canFocus then some c else findRootClient rest

/-- The `notificationclick` listener: close the clicked notification
(first output, always true), then focus the first client whose url is
`"/"` and that supports focus; otherwise, if `clients.openWindow` exists,
open a new window at `"/"`. -/
def notificationClick (clientList : List WindowClient)
    (openWindowAvailable : Bool) : Bool × ClickAction :=
  let closed := true
  match findRootClient clientList with
  | some c => (closed, .focusedClient c)
  | none =>
      if openWindowAvailable then (closed, .openedWindow "/")
      else (closed, .noAction)

/-! ### Relay backend: subscriptions map (backend-example.js line 46)

The `subscriptions` JavaScript `Map` and the `cron.getTasks()` map are
modelled as association lists in insertion order; `Map.set` replaces the
value at an existing key in place, `Map.delete` removes the entry,
`Map.size` is the number of entries. -/

/-- `Map.prototype.get`: the value stored at the key, if any. -/
def mapGet {α : Type} : List (String × α) → String → Option α
  | [], _ => none
  | p :: rest, k => if p.1 = k then some p.2 else mapGet rest k

/-- `Map.prototype.has` (key membership). -/
def mapHas {α : Type} : List (String × α) → String → Bool
  | [], _ => false
  | p :: rest, k => if p.1 = k then true else mapHas rest k

/-- `Map.prototype.set`: update the value at an existing key in place,
otherwise append a new entry at the end. -/
def mapSet {α : Type} : List (String × α) → String → α → List (String × α)
  | [], k, v => [(k, v)]
  | p :: rest, k, v =>
      if p.1 = k then (k, v) :: rest else p :: mapSet rest k v

/-- `Map.prototype.delete`: remove the entry stored at the key, if any. -/
def mapDelete {α : Type} : List (String × α) → String → List (String × α)
  | [], _ => []
  | p :: rest, k => if p.1 = k then rest else p :: mapDelete rest k

/-- `Map.prototype.size`. -/
def mapSize {α : Type} (l : List (String × α)) : Nat :=
  l.length

/-- Number of entries stored under a key. -/
def countKey {α : Type} : List (String × α) → String → Nat
  | [], _ => 0
  | p :: rest, k => (if p.1 = k then 1 else 0) + countKey rest k

/-- Keys of a JavaScript `Map` are pairwise distinct. -/
def mapKeysNodup {α : Type} (l : List (String × α)) : Prop :=
  (l.map (fun p => p.1)).Nodup

/-! ### Relay backend: data stored per token -/

/-- A stored subscription: `{ intervalMinutes, lastSent }`
(backend-example.js lines 58-61). -/
structure Subscription where
  intervalMinutes : Nat
  lastSent : Nat
  deriving Repr, DecidableEq

/-- A node-cron job as the relay uses it: the cron expression it was
created with, the `intervalMinutes` captured by its callback closure
(the callback invokes `sendNotification(token, intervalMinutes)`), and
whether it is running (`job.stop()` clears this). -/
structure CronJob where
  expression : String
  intervalMinutes : Nat
  running : Bool
  deriving Repr, DecidableEq

/-- The whole relay state: the `subscriptions` map and the
`cron.getTasks()` map, both keyed by token. -/
structure RelayState where
  subscriptions : List (String × Subscription)
  cronTasks : List (String × CronJob)
  deriving Repr, DecidableEq

/-- Relay state at server start: both maps empty. -/
def initialRelayState : RelayState :=
  { subscriptions := [], cronTasks := [] }

/-! ### scheduleNotification (backend-example.js lines 139-170) -/

/-- The cron expression built from the interval: `* * * * *` for one
minute, `*/N * * * *` otherwise. -/
def cronExpressionFor (intervalMinutes : Nat) : String :=
  if intervalMinutes = 1 then "* * * * *"
  else "*/" ++ toString intervalMinutes ++ " * * * *"

/-- `scheduleNotification(token, intervalMinutes)`: stop the existing job
for this token if any, create a new running job from the cron expression,
and store it in the task map under the token.  The second output is the
old job after its `stop()` call (`none` when there was none); in the task
map it is immediately overwritten by the new job. -/
def scheduleNotification (tasks : List (String × CronJob)) (token : String)
    (intervalMinutes : Nat) : List (String × CronJob) × Option CronJob :=
  let cronExpression := cronExpressionFor intervalMinutes
  let existingJob := mapGet tasks token
  let stoppedJob := existingJob.map (fun j => { j with running := false })
  let job : CronJob :=
    { expression := cronExpression, intervalMinutes := intervalMinutes,
      running := true }
  (mapSet tasks token job, stoppedJob)

/-! ### HTTP handlers (backend-example.js lines 48-94, 172-179) -/

/-- `POST /api/subscribe`: reject with 400 when `token` or
`intervalMinutes` is falsy; otherwise store
`{ intervalMinutes, lastSent: Date.now() }` under the token, call
`scheduleNotification`, and reply 200.  The last output is the job the
inner `scheduleNotification` stopped, if any. -/
def handleSubscribe (st : RelayState) (token : String) (intervalMinutes : Nat)
    (now : Nat) : RelayState × Nat × Option CronJob :=
  if token = "" ∨ intervalMinutes = 0 then (st, 400, none)
  else
    let subs := mapSet st.subscriptions token
      { intervalMinutes := intervalMinutes, lastSent := now }
    let sched := scheduleNotification st.cronTasks token intervalMinutes
    ({ subscriptions := subs, cronTasks := sched.1 }, 200, sched.2)

/-- `POST /api/unsubscribe`: reject with 400 when `token` is falsy;
otherwise delete the token from `subscriptions` and reply 200.  The cron
task map is not touched. -/
def handleUnsubscribe (st : RelayState) (token : String) : RelayState × Nat :=
  if token = "" then (st, 400)
  else ({ st with subscriptions := mapDelete st.subscriptions token }, 200)

/-- The `GET /health` reply body: `{ status, subscriptions }`
(the timestamp field is the ambient clock and carries no state). -/
structure HealthReply where
  status : String
  subscriptions : Nat
  deriving Repr, DecidableEq

/-- `GET /health`: report `"ok"` and `subscriptions.size`. -/
def handleHealth (st : RelayState) : HealthReply :=
  { status := "ok", subscriptions := mapSize st.subscriptions }

/-! ### sendNotification (backend-example.js lines 96-137) -/

/-- Outcome of `admin.messaging().send(message)`, which is external:
either the push was delivered, or it threw an error with a `code`. -/
inductive SendOutcome where
  | success
  | failure (code : String)
  deriving Repr, DecidableEq

/-- The error codes the catch block classifies as a permanently invalid
token. -/
def isInvalidTokenCode (code : String) : Bool :=
  code = "messaging/invalid-registration-token" ||
  code = "messaging/registration-token-not-registered"

/-- `sendNotification(token, intervalMinutes)`: on success, one push
notification reaches the client and `lastSent` of the stored subscription
(if still present) is updated; on failure nothing reaches the client, and
when the error code marks the token permanently invalid the subscription
is deleted, otherwise the state is untouched.  The second output is the
number of notifications delivered to the client. -/
def sendNotification (st : RelayState) (token : String)
    (intervalMinutes : Nat) (outcome : SendOutcome) (now : Nat) :
    RelayState × Nat :=
  match outcome with
  | .success =>
      let subs :=
        if mapHas st.subscriptions token then
          st.subscriptions.map
            (fun p => if p.1 = token then (p.1, { p.2 with lastSent := now }) else p)
        else st.subscriptions
      ({ st with subscriptions := subs }, 1)
  | .failure code =>
      if isInvalidTokenCode code then
        ({ st with subscriptions := mapDelete st.subscriptions token }, 0)
      else (st, 0)

/-- One wake-up of the cron scheduler for a token: when the stored job for
the token is running, its callback invokes
`sendNotification(token, intervalMinutes)` with the interval captured at
scheduling time.  The second output is the number of notifications
delivered to the client. -/
def cronTick (st : RelayState) (token : String) (outcome : SendOutcome)
    (now : Nat) : RelayState × Nat :=
  match mapGet st.cronTasks token with
  | some job =>
      if job.running then sendNotification st token job.intervalMinutes outcome now
      else (st, 0)
  | none => (st, 0)

/-! ### Lemmas about the Map model -/

theorem mapGet_mapSet_self {α : Type} (l : List (String × α)) (k : String) (v : α) :
    mapGet (mapSet l k v) k = some v := by
  induction l with
  | nil => simp [mapSet, mapGet]
  | cons p rest ih =>
      by_cases hp : p.1 = k <;> simp [mapSet, mapGet, hp, ih]

theorem mapHas_mapSet_self {α : Type} (l : List (String × α)) (k : String) (v : α) :
    mapHas (mapSet l k v) k = true := by
  induction l with
  | nil => simp [mapSet, mapHas]
  | cons p rest ih =>
      by_cases hp : p.1 = k <;> simp [mapSet, mapHas, hp, ih]

theorem mapSize_mapSet_of_has {α : Type} (l : List (String × α)) (k : String) (v : α)
    (h : mapHas l k = true) : mapSize (mapSet l k v) = mapSize l := by
  induction l with
  | nil => simp [mapHas] at h
  | cons p rest ih =>
      by_cases hp : p.1 = k
      · simp [mapSet, hp, mapSize]
      · have hrest : mapHas rest k = true := by simpa [mapHas, hp] using h
        simp [mapSet, hp, mapSize] at ih ⊢
        exact ih hrest

theorem mapSize_mapSet_of_not_has {α : Type} (l : List (String × α)) (k : String) (v : α)
    (h : mapHas l k = false) : mapSize (mapSet l k v) = mapSize l + 1 := by
  induction l with
  | nil => simp [mapSet, mapSize]
  | cons p rest ih =>
      have hp : ¬ p.1 = k := by
        intro hk; simp [mapHas, hk] at h
      have hrest : mapHas rest k = false := by simpa [mapHas, hp] using h
      simp [mapSet, hp, mapSize] at ih ⊢
      exact ih hrest

theorem mapGet_eq_none_of_not_mem_keys {α : Type} (l : List (String × α)) (k : String)
    (h : k ∉ l.map (fun p => p.1)) : mapGet l k = none := by
  induction l with
  | nil => simp [mapGet]
  | cons p rest ih =>
      simp only [List.map_cons, List.mem_cons] at h
      push_neg at h
      have hp : ¬ p.1 = k := fun hk => h.1 hk.symm
      simp [mapGet, hp, ih h.2]

theorem mapGet_mapDelete_self {α : Type} (l : List (String × α)) (k : String)
    (hnd : mapKeysNodup l) : mapGet (mapDelete l k) k = none := by
  induction l with
  | nil => simp [mapDelete, mapGet]
  | cons p rest ih =>
      unfold mapKeysNodup at hnd
      simp only [List.map_cons, List.nodup_cons] at hnd
      by_cases hp : p.1 = k
      · have : k ∉ rest.map (fun p => p.1) := by rw [← hp]; exact hnd.1
        simp [mapDelete, hp, mapGet_eq_none_of_not_mem_keys rest k this]
      · simp [mapDelete, mapGet, hp]
        exact ih hnd.2

theorem mapSize_mapDelete_of_get {α : Type} (l : List (String × α)) (k : String) (v : α)
    (hget : mapGet l k = some v) : mapSize (mapDelete l k) + 1 = mapSize l := by
  induction l with
  | nil => simp [mapGet] at hget
  | cons p rest ih =>
      by_cases hp : p.1 = k
      · simp [mapDelete, hp, mapSize]
      · have hget' : mapGet rest k = some v := by simpa [mapGet, hp] using hget
        simp [mapDelete, hp, mapSize] at ih ⊢
        exact ih hget'

theorem mapDelete_of_not_has {α : Type} (l : List (String × α)) (k : String)
    (h : mapHas l k = false) : mapDelete l k = l := by
  induction l with
  | nil => simp [mapDelete]
  | cons p rest ih =>
      have hp : ¬ p.1 = k := by
        intro hk; simp [mapHas, hk] at h
      have hrest : mapHas rest k = false := by simpa [mapHas, hp] using h
      simp [mapDelete, hp, ih hrest]

theorem countKey_eq_zero_of_not_mem_keys {α : Type} (l : List (String × α)) (k : String)
    (h : k ∉ l.map (fun p => p.1)) : countKey l k = 0 := by
  induction l with
  | nil => simp [countKey]
  | cons p rest ih =>
      simp only [List.map_cons, List.mem_cons] at h
      push_neg at h
      have hp : ¬ p.1 = k := fun hk => h.1 hk.symm
      simp [countKey, hp, ih h.2]

theorem countKey_mapSet_self {α : Type} (l : List (String × α)) (k : String) (v : α)
    (hnd : mapKeysNodup l) : countKey (mapSet l k v) k = 1 := by
  induction l with
  | nil => simp [mapSet, countKey]
  | cons p rest ih =>
      unfold mapKeysNodup at hnd
      simp only [List.map_cons, List.nodup_cons] at hnd
      by_cases hp : p.1 = k
      · have : k ∉ rest.map (fun p => p.1) := by rw [← hp]; exact hnd.1
        simp [mapSet, hp, countKey, countKey_eq_zero_of_not_mem_keys rest k this]
      · simp [mapSet, hp, countKey] at ih ⊢
        exact ih hnd.2

theorem mapHas_iff_mem_keys {α : Type} (l : List (String × α)) (k : String) :
    mapHas l k = true ↔ k ∈ l.map (fun p => p.1) := by
  induction l with
  | nil => simp [mapHas]
  | cons p rest ih =>
      by_cases hp : p.1 = k
      · simp [mapHas, hp]
      · have hp' : ¬ k = p.1 := fun h => hp h.symm
        simp [mapHas, hp, hp', ih]

theorem mapHas_mapSet {α : Type} (l : List (String × α)) (k a : String) (v : α)
    (h : mapHas (mapSet l k v) a = true) : mapHas l a = true ∨ a = k := by
  induction l with
  | nil =>
      simp [mapSet, mapHas] at h
      right
      by_cases hk : k = a
      · exact hk.symm
      · simp [hk] at h
  | cons p rest ih =>
      by_cases hp : p.1 = k
      · by_cases hk : k = a
        · right; exact hk.symm
        · have : mapHas rest a = true := by simpa [mapSet, mapHas, hp, hk] using h
          left; simp [mapHas]
          by_cases hpa : p.1 = a
          · simp [hpa]
          · simp [hpa, this]
      · by_cases hpa : p.1 = a
        · left; simp [mapHas, hpa]
        · have : mapHas (mapSet rest k v) a = true := by
            simpa [mapSet, mapHas, hp, hpa] using h
          rcases ih this with h' | h'
          · left; simp [mapHas, hpa, h']
          · right; exact h'

theorem mapKeysNodup_mapSet {α : Type} (l : List (String × α)) (k : String) (v : α)
    (hnd : mapKeysNodup l) : mapKeysNodup (mapSet l k v) := by
  induction l with
  | nil => simp [mapSet, mapKeysNodup]
  | cons p rest ih =>
      unfold mapKeysNodup at hnd ⊢
      simp only [List.map_cons, List.nodup_cons] at hnd
      by_cases hp : p.1 = k
      · simp only [mapSet, hp, if_true, List.map_cons, List.nodup_cons]
        refine ⟨?_, hnd.2⟩
        rw [← hp]; exact hnd.1
      · simp only [mapSet, hp, if_false, List.map_cons, List.nodup_cons]
        refine ⟨?_, ih hnd.2⟩
        intro hmem
        have hhas := (mapHas_iff_mem_keys (mapSet rest k v) p.1).mpr hmem
        rcases mapHas_mapSet rest k p.1 v hhas with h' | h'
        · exact hnd.1 ((mapHas_iff_mem_keys rest p.1).mp h')
        · exact hp h'

/-! ### Lemmas about the notificationclick client loop -/

theorem findRootClient_eq_none (l : List WindowClient)
    (h : ∀ c ∈ l, ¬ (c.url = "/" ∧ c.canFocus = true)) : findRootClient l = none := by
  induction l with
  | nil => rfl
  | cons c rest ih =>
      have hc := h c (by simp)
      have hrest : ∀ d ∈ rest, ¬ (d.url = "/" ∧ d.canFocus = true) :=
        fun d hd => h d (by simp [hd])
      simp only [findRootClient]
      rw [if_neg (by simpa using hc)]
      exact ih hrest

theorem findRootClient_mem (l : List WindowClient) (c : WindowClient)
    (h : findRootClient l = some c) :
    c ∈ l ∧ c.url = "/" ∧ c.canFocus = true := by
  induction l with
  | nil => simp [findRootClient] at h
  | cons d rest ih =>
      by_cases hd : d.url = "/" ∧ d.canFocus
      · have : d = c := by simpa [findRootClient, hd] using h
        subst this
        exact ⟨by simp, hd.1, hd.2⟩
      · have h' : findRootClient rest = some c := by
          simpa [findRootClient, hd] using h
        obtain ⟨hmem, hurl, hfoc⟩ := ih h'
        exact ⟨by simp [hmem], hurl, hfoc⟩

theorem findRootClient_isSome (l : List WindowClient) (c : WindowClient)
    (hc : c ∈ l) (hurl : c.url = "/") (hfoc : c.canFocus = true) :
    ∃ d, findRootClient l = some d := by
  induction l with
  | nil => simp at hc
  | cons d rest ih =>
      by_cases hd : d.url = "/" ∧ d.canFocus
      · exact ⟨d, by simp [findRootClient, hd]⟩
      · rcases List.mem_cons.mp hc with rfl | hmem
        · exact absurd ⟨hurl, hfoc⟩ hd
        · obtain ⟨e, he⟩ := ih hmem
          exact ⟨e, by simpa [findRootClient, hd] using he⟩

/-! ### Claim theorems for the Local Scheduler (sw.js) -/

/-- C1: for every `intervalMinutes > 0`, `startNotificationSchedule` first
clears any existing schedule (its result does not depend on the prior
state), sets `notificationInterval`, shows exactly one notification during
the call, and sets `nextNotificationTime = now + intervalMinutes*60000`;
a CHECK_SCHEDULE query issued immediately after returns exactly
`nextFireAt = now + intervalMinutes*60000` (so within the 10-second poll
granularity of `now + intervalMinutes*60000`). -/
theorem C1_start_then_query (s : SWState) (intervalMinutes now : Nat)
    (hpos : 0 < intervalMinutes) :
    startNotificationSchedule s intervalMinutes now =
      startNotificationSchedule initialSWState intervalMinutes now ∧
    (startNotificationSchedule s intervalMinutes now).1.notificationInterval =
      some intervalMinutes ∧
    (startNotificationSchedule s intervalMinutes now).2 = 1 ∧
    (startNotificationSchedule s intervalMinutes now).1.nextNotificationTime =
      some (now + intervalMinutes * 60000) ∧
    handleMessage (startNotificationSchedule s intervalMinutes now).1
        SWMessage.checkSchedule now =
      ((startNotificationSchedule s intervalMinutes now).1, 0,
        some { interval := some intervalMinutes,
               nextTime := some (now + intervalMinutes * 60000) }) := by
  have harith : intervalMinutes * 60 * 1000 = intervalMinutes * 60000 := by ring
  by_cases hc : s.checkInterval <;>
    simp [startNotificationSchedule, stopNotificationSchedule, handleMessage,
      initialSWState, hc, harith]

/-- Witness for C1 at a concrete input. -/
theorem C1_start_then_query_witness :
    (startNotificationSchedule initialSWState 5 1000).1.nextNotificationTime =
      some (1000 + 5 * 60000) :=
  (C1_start_then_query initialSWState 5 1000 (by decide)).2.2.2.1

/-- C2: on a poll tick of an active schedule (interval `intervalMinutes`,
deadline `nextT`, poll closure carrying
`intervalMs = intervalMinutes*60000`): when `now >= nextT` exactly one
notification is shown and the deadline becomes `now + intervalMinutes*60000`
(computed from `now`, not from the old deadline); when `now < nextT`
nothing is shown and the state is unchanged. -/
theorem C2_poll_tick (s : SWState) (intervalMinutes nextT now : Nat)
    (hint : s.notificationInterval = some intervalMinutes)
    (hpos : 0 < intervalMinutes)
    (hnext : s.nextNotificationTime = some nextT) (htpos : 0 < nextT) :
    (nextT ≤ now →
      checkAndSendNotification s (intervalMinutes * 60000) now =
        ({ s with nextNotificationTime := some (now + intervalMinutes * 60000) }, 1)) ∧
    (now < nextT →
      checkAndSendNotification s (intervalMinutes * 60000) now = (s, 0)) := by
  obtain ⟨m, rfl⟩ : ∃ m, intervalMinutes = m + 1 := ⟨intervalMinutes - 1, by omega⟩
  obtain ⟨t, rfl⟩ : ∃ t, nextT = t + 1 := ⟨nextT - 1, by omega⟩
  constructor
  · intro hle
    simp [checkAndSendNotification, hint, hnext, jsTruthy, hle]
  · intro hlt
    simp [checkAndSendNotification, hint, hnext, jsTruthy]
    omega

/-- Witness for C2 at a concrete input. -/
theorem C2_poll_tick_witness :
    checkAndSendNotification
        { notificationInterval := some 2, nextNotificationTime := some 500,
          checkInterval := true } (2 * 60000) 700 =
      ({ notificationInterval := some 2, nextNotificationTime := some (700 + 2 * 60000),
         checkInterval := true }, 1) :=
  (C2_poll_tick
      { notificationInterval := some 2, nextNotificationTime := some 500,
        checkInterval := true } 2 500 700 rfl (by decide) rfl (by decide)).1
    (by decide)

/-- C3: the ScheduleState invariant (`nextFireAt` null iff `intervalMinutes`
null) is preserved by every worker event: each of the three messages and
every completed poll tick. -/
theorem C3_invariant_preserved (s : SWState) (e : SWEvent) (now : Nat)
    (h : scheduleInvariant s) : scheduleInvariant (stepSW s e now) := by
  cases e with
  | message msg =>
      cases msg with
      | startNotifications intervalMinutes =>
          by_cases hc : s.checkInterval <;>
            simp [stepSW, handleMessage, startNotificationSchedule,
              stopNotificationSchedule, scheduleInvariant, hc]
      | stopNotifications =>
          by_cases hc : s.checkInterval <;>
            simp [stepSW, handleMessage, stopNotificationSchedule,
              scheduleInvariant, hc]
      | checkSchedule => simpa [stepSW, handleMessage] using h
  | pollTick intervalMs =>
      rcases hint : s.notificationInterval with _ | m
      · rcases hnext : s.nextNotificationTime with _ | t
        · simpa [stepSW, checkAndSendNotification, hint, hnext, jsTruthy] using h
        · exfalso
          unfold scheduleInvariant at h
          rw [hint, hnext] at h
          simp at h
      · rcases hnext : s.nextNotificationTime with _ | t
        · exfalso
          unfold scheduleInvariant at h
          rw [hint, hnext] at h
          simp at h
        · cases t with
          | zero => simpa [stepSW, checkAndSendNotification, hint, hnext, jsTruthy] using h
          | succ t' =>
              cases m with
              | zero =>
                  simpa [stepSW, checkAndSendNotification, hint, hnext, jsTruthy] using h
              | succ m' =>
                  by_cases hle : t' + 1 ≤ now <;>
                    simp [stepSW, checkAndSendNotification, hint, hnext, jsTruthy,
                      hle, scheduleInvariant]

/-- Witness for C3 at a concrete input. -/
theorem C3_invariant_preserved_witness :
    scheduleInvariant
      (stepSW initialSWState (SWEvent.message (SWMessage.startNotifications 5)) 1000) :=
  C3_invariant_preserved initialSWState
    (SWEvent.message (SWMessage.startNotifications 5)) 1000 (by decide)

/-- C4: `stopNotificationSchedule` is idempotent — applying it twice gives
exactly the state of applying it once, and applying it to the fully
inactive state (no interval, no deadline, no poll timer) is a no-op. -/
theorem C4_stop_idempotent (s : SWState) :
    stopNotificationSchedule (stopNotificationSchedule s) =
      stopNotificationSchedule s ∧
    (s.notificationInterval = none ∧ s.nextNotificationTime = none ∧
        s.checkInterval = false →
      stopNotificationSchedule s = s) := by
  constructor
  · by_cases hc : s.checkInterval <;> simp [stopNotificationSchedule, hc]
  · rintro ⟨h1, h2, h3⟩
    cases s
    simp_all [stopNotificationSchedule]

/-- Witness for C4 at a concrete input. -/
theorem C4_stop_idempotent_witness :
    stopNotificationSchedule (stopNotificationSchedule initialSWState) =
      stopNotificationSchedule initialSWState ∧
    stopNotificationSchedule initialSWState = initialSWState :=
  ⟨(C4_stop_idempotent initialSWState).1,
   (C4_stop_idempotent initialSWState).2 (by decide)⟩

/-- C5: handling CHECK_SCHEDULE replies with exactly the current schedule
`{ interval := intervalMinutes, nextTime := nextFireAt }` (both null when
inactive), shows no notification, and leaves the state unchanged. -/
theorem C5_check_schedule (s : SWState) (now : Nat) :
    handleMessage s SWMessage.checkSchedule now =
      (s, 0, some { interval := s.notificationInterval,
                    nextTime := s.nextNotificationTime }) := rfl

/-! ### Claim theorems for the Notification Presenter click handler -/

/-- C8 as stated is false on the code: with exactly one existing app
window client, at url "/about" and supporting focus, the handler does not
focus it — it opens a new window at "/" instead, because the loop only
matches clients whose url is exactly "/". -/
theorem C8_counterexample :
    ([({ url := "/about", canFocus := true } : WindowClient)] ≠
        ([] : List WindowClient)) ∧
    notificationClick [{ url := "/about", canFocus := true }] true =
      (true, ClickAction.openedWindow "/") := by
  constructor
  · simp
  · rfl

/-- C8 amended: the handler closes the notification; if some client in the
list has url exactly "/" and supports focus, it focuses such a client
(the first one); otherwise (when `clients.openWindow` is available) it
opens a new window at the root URL "/". -/
theorem C8_click_close_focus_or_open (clientList : List WindowClient) :
    (notificationClick clientList true).1 = true ∧
    ((∃ c ∈ clientList, c.url = "/" ∧ c.canFocus = true) →
      ∃ c ∈ clientList, c.url = "/" ∧ c.canFocus = true ∧
        (notificationClick clientList true).2 = ClickAction.focusedClient c) ∧
    ((∀ c ∈ clientList, ¬ (c.url = "/" ∧ c.canFocus = true)) →
      (notificationClick clientList true).2 = ClickAction.openedWindow "/") := by
  refine ⟨?_, ?_, ?_⟩
  · rcases hf : findRootClient clientList with _ | c <;>
      simp [notificationClick, hf]
  · rintro ⟨c, hc, hurl, hfoc⟩
    obtain ⟨d, hd⟩ := findRootClient_isSome clientList c hc hurl hfoc
    obtain ⟨hdmem, hdurl, hdfoc⟩ := findRootClient_mem clientList d hd
    exact ⟨d, hdmem, hdurl, hdfoc, by simp [notificationClick, hd]⟩
  · intro hnone
    have hf := findRootClient_eq_none clientList hnone
    simp [notificationClick, hf]

/-- Witness for the amended C8 at concrete inputs: a client at "/" is
focused; with no matching client a window opens at "/". -/
theorem C8_click_close_focus_or_open_witness :
    (∃ c ∈ [({ url := "/", canFocus := true } : WindowClient)],
      c.url = "/" ∧ c.canFocus = true ∧
        (notificationClick [{ url := "/", canFocus := true }] true).2 =
          ClickAction.focusedClient c) ∧
    (notificationClick ([] : List WindowClient) true).2 =
      ClickAction.openedWindow "/" :=
  ⟨(C8_click_close_focus_or_open [{ url := "/", canFocus := true }]).2.1
      ⟨{ url := "/", canFocus := true }, by simp, rfl, rfl⟩,
   (C8_click_close_focus_or_open []).2.2 (by simp)⟩

/-! ### Claim theorems for the relay backend (backend-example.js) -/

/-- C6: from any relay state not yet holding token "abc", subscribing
token "abc" with intervalMinutes 15 succeeds with HTTP 200, and the
/health subscriptions count afterwards is exactly one more than before. -/
theorem C6_subscribe_increments_health (st : RelayState) (now : Nat)
    (habs : mapHas st.subscriptions "abc" = false) :
    (handleSubscribe st "abc" 15 now).2.1 = 200 ∧
    (handleHealth (handleSubscribe st "abc" 15 now).1).subscriptions =
      (handleHealth st).subscriptions + 1 := by
  constructor
  · simp [handleSubscribe]
  · simp [handleSubscribe, handleHealth]
    exact mapSize_mapSet_of_not_has st.subscriptions "abc" _ habs

/-- Witness for C6 at a concrete input. -/
theorem C6_subscribe_increments_health_witness :
    (handleSubscribe initialRelayState "abc" 15 1000).2.1 = 200 ∧
    (handleHealth (handleSubscribe initialRelayState "abc" 15 1000).1).subscriptions =
      (handleHealth initialRelayState).subscriptions + 1 :=
  C6_subscribe_increments_health initialRelayState 1000 (by decide)

/-- C7: when delivery for a stored subscription's token fails with an
error code classified as permanently invalid, the relay deletes the
stored subscription — nothing is delivered to the client, the token's
entry is gone, and the /health subscriptions count drops by exactly one;
a failure with any other error code leaves the state untouched. -/
theorem C7_invalid_token_cleanup (st : RelayState) (token : String)
    (sub : Subscription) (intervalMinutes now : Nat) (code : String)
    (hstored : mapGet st.subscriptions token = some sub)
    (hnd : mapKeysNodup st.subscriptions) :
    (isInvalidTokenCode code = true →
      (sendNotification st token intervalMinutes (SendOutcome.failure code) now).2 = 0 ∧
      mapGet (sendNotification st token intervalMinutes
          (SendOutcome.failure code) now).1.subscriptions token = none ∧
      (handleHealth (sendNotification st token intervalMinutes
          (SendOutcome.failure code) now).1).subscriptions + 1 =
        (handleHealth st).subscriptions) ∧
    (isInvalidTokenCode code = false →
      sendNotification st token intervalMinutes (SendOutcome.failure code) now =
        (st, 0)) := by
  constructor
  · intro hcode
    refine ⟨?_, ?_, ?_⟩
    · simp [sendNotification, hcode]
    · simp [sendNotification, hcode]
      exact mapGet_mapDelete_self _ token hnd
    · simp [sendNotification, handleHealth, hcode]
      exact mapSize_mapDelete_of_get _ token sub hstored
  · intro hcode
    simp [sendNotification, hcode]

/-- Witness for C7 at a concrete input. -/
theorem C7_invalid_token_cleanup_witness :
    (sendNotification
        { subscriptions := [("abc", { intervalMinutes := 15, lastSent := 0 })],
          cronTasks := [] } "abc" 15
        (SendOutcome.failure "messaging/invalid-registration-token") 99).2 = 0 ∧
    mapGet (sendNotification
        { subscriptions := [("abc", { intervalMinutes := 15, lastSent := 0 })],
          cronTasks := [] } "abc" 15
        (SendOutcome.failure "messaging/invalid-registration-token") 99).1.subscriptions
      "abc" = none ∧
    (handleHealth (sendNotification
        { subscriptions := [("abc", { intervalMinutes := 15, lastSent := 0 })],
          cronTasks := [] } "abc" 15
        (SendOutcome.failure "messaging/invalid-registration-token") 99).1).subscriptions
      + 1 =
      (handleHealth
        { subscriptions := [("abc", { intervalMinutes := 15, lastSent := 0 })],
          cronTasks := [] }).subscriptions :=
  (C7_invalid_token_cleanup
      { subscriptions := [("abc", { intervalMinutes := 15, lastSent := 0 })],
        cronTasks := [] } "abc" { intervalMinutes := 15, lastSent := 0 } 15 99
      "messaging/invalid-registration-token" (by decide)
      (by simp [mapKeysNodup])).1 (by decide)

/-- C9: unsubscribing a token deletes it from the subscriptions map,
changes nothing else — in particular the cron job registered for the
token stays present and running — and a later cron wake-up for that token
still invokes `sendNotification`, delivering a notification on success. -/
theorem C9_unsubscribe_keeps_cron (st : RelayState) (token : String)
    (job : CronJob) (htok : ¬ token = "")
    (hjob : mapGet st.cronTasks token = some job) (hrun : job.running = true) :
    (handleUnsubscribe st token).2 = 200 ∧
    (handleUnsubscribe st token).1.subscriptions =
      mapDelete st.subscriptions token ∧
    (handleUnsubscribe st token).1.cronTasks = st.cronTasks ∧
    mapGet (handleUnsubscribe st token).1.cronTasks token = some job ∧
    (∀ now, (cronTick (handleUnsubscribe st token).1 token
        SendOutcome.success now).2 = 1) := by
  refine ⟨?_, ?_, ?_, ?_, ?_⟩
  · simp [handleUnsubscribe, htok]
  · simp [handleUnsubscribe, htok]
  · simp [handleUnsubscribe, htok]
  · simp [handleUnsubscribe, htok, hjob]
  · intro now
    simp [handleUnsubscribe, htok, cronTick, hjob, hrun, sendNotification]

/-- Witness for C9 at a concrete input. -/
theorem C9_unsubscribe_keeps_cron_witness :
    (handleUnsubscribe
        { subscriptions := [("abc", { intervalMinutes := 15, lastSent := 0 })],
          cronTasks := [("abc",
            { expression := cronExpressionFor 15, intervalMinutes := 15,
              running := true })] } "abc").2 = 200 ∧
    (cronTick (handleUnsubscribe
        { subscriptions := [("abc", { intervalMinutes := 15, lastSent := 0 })],
          cronTasks := [("abc",
            { expression := cronExpressionFor 15, intervalMinutes := 15,
              running := true })] } "abc").1 "abc" SendOutcome.success 77).2 = 1 := by
  have h := C9_unsubscribe_keeps_cron
    { subscriptions := [("abc", { intervalMinutes := 15, lastSent := 0 })],
      cronTasks := [("abc",
        { expression := cronExpressionFor 15, intervalMinutes := 15,
          running := true })] } "abc"
    { expression := cronExpressionFor 15, intervalMinutes := 15, running := true }
    (by decide) (by simp [mapGet]) rfl
  exact ⟨h.1, h.2.2.2.2 77⟩

/-- C10: subscribing twice with the same token (any two valid intervals)
leaves exactly one stored subscription for the token, carrying the second
call's interval; the second call stops the first call's cron job and
replaces it in the task map with a running job for the new interval; and
the /health subscriptions count after the second call equals the count
after the first. -/
theorem C10_subscribe_idempotent (st : RelayState) (token : String)
    (m1 m2 now1 now2 : Nat) (htok : ¬ token = "")
    (hm1 : ¬ m1 = 0) (hm2 : ¬ m2 = 0)
    (hnd : mapKeysNodup st.subscriptions) :
    countKey (handleSubscribe (handleSubscribe st token m1 now1).1
        token m2 now2).1.subscriptions token = 1 ∧
    mapGet (handleSubscribe (handleSubscribe st token m1 now1).1
        token m2 now2).1.subscriptions token =
      some { intervalMinutes := m2, lastSent := now2 } ∧
    mapGet (handleSubscribe st token m1 now1).1.cronTasks token =
      some { expression := cronExpressionFor m1, intervalMinutes := m1,
             running := true } ∧
    (handleSubscribe (handleSubscribe st token m1 now1).1 token m2 now2).2.2 =
      some { expression := cronExpressionFor m1, intervalMinutes := m1,
             running := false } ∧
    mapGet (handleSubscribe (handleSubscribe st token m1 now1).1
        token m2 now2).1.cronTasks token =
      some { expression := cronExpressionFor m2, intervalMinutes := m2,
             running := true } ∧
    (handleHealth (handleSubscribe (handleSubscribe st token m1 now1).1
        token m2 now2).1).subscriptions =
      (handleHealth (handleSubscribe st token m1 now1).1).subscriptions := by
  have hfirst :
      (handleSubscribe st token m1 now1).1 =
        { subscriptions := mapSet st.subscriptions token
            { intervalMinutes := m1, lastSent := now1 },
          cronTasks := mapSet st.cronTasks token
            { expression := cronExpressionFor m1, intervalMinutes := m1,
              running := true } } := by
    simp [handleSubscribe, scheduleNotification, htok, hm1]
  refine ⟨?_, ?_, ?_, ?_, ?_, ?_⟩
  · rw [hfirst]
    simp [handleSubscribe, scheduleNotification, htok, hm2]
    exact countKey_mapSet_self _ token _
      (mapKeysNodup_mapSet st.subscriptions token _ hnd)
  · rw [hfirst]
    simp [handleSubscribe, scheduleNotification, htok, hm2]
    exact mapGet_mapSet_self _ token _
  · rw [hfirst]
    exact mapGet_mapSet_self _ token _
  · rw [hfirst]
    simp [handleSubscribe, scheduleNotification, htok, hm2,
      mapGet_mapSet_self]
  · rw [hfirst]
    simp [handleSubscribe, scheduleNotification, htok, hm2]
    exact mapGet_mapSet_self _ token _
  · rw [hfirst]
    simp [handleSubscribe, scheduleNotification, handleHealth, htok, hm2]
    exact mapSize_mapSet_of_has _ token _
      (mapHas_mapSet_self st.subscriptions token _)

/-- Witness for C10 at a concrete input. -/
theorem C10_subscribe_idempotent_witness :
    countKey (handleSubscribe (handleSubscribe initialRelayState "abc" 1 10).1
        "abc" 15 20).1.subscriptions "abc" = 1 ∧
    mapGet (handleSubscribe (handleSubscribe initialRelayState "abc" 1 10).1
        "abc" 15 20).1.subscriptions "abc" =
      some { intervalMinutes := 15, lastSent := 20 } ∧
    mapGet (handleSubscribe initialRelayState "abc" 1 10).1.cronTasks "abc" =
      some { expression := cronExpressionFor 1, intervalMinutes := 1,
             running := true } ∧
    (handleSubscribe (handleSubscribe initialRelayState "abc" 1 10).1
        "abc" 15 20).2.2 =
      some { expression := cronExpressionFor 1, intervalMinutes := 1,
             running := false } ∧
    mapGet (handleSubscribe (handleSubscribe initialRelayState "abc" 1 10).1
        "abc" 15 20).1.cronTasks "abc" =
      some { expression := cronExpressionFor 15, intervalMinutes := 15,
             running := true } ∧
    (handleHealth (handleSubscribe (handleSubscribe initialRelayState "abc" 1 10).1
        "abc" 15 20).1).subscriptions =
      (handleHealth (handleSubscribe initialRelayState "abc" 1 10).1).subscriptions :=
  C10_subscribe_idempotent initialRelayState "abc" 1 15 10 20
    (by decide) (by decide) (by decide) (by simp [mapKeysNodup, initialRelayState])
